import Mathlib

/-
Verification of `src/util/array.h` (fixed size, size-prefixed arrays).

The C++ class `array<T, CallDestructors>` stores the element count in a
`size_t` word immediately preceding the element storage, inside one
contiguous region.  The handle `m_data` is either the null sentinel or
points at the first element.  We embed this shallowly:

  * a `Region` is the backed block: the header word (`header`, written by
    `set_data`) together with the element slots; a slot is `none` while the
    memory is uninitialized and `some v` once a `T` has been constructed
    in it;
  * a `Handle` is `m_data`: either `null` (the sentinel `m_data == 0`) or
    `backed addr r`, where `addr` is the address returned by the memory
    supplier (equivalently the value of `raw_ptr()`, the start of the
    region) and `r` the region it points into;
  * side effects that the claims talk about — placement-new construction,
    destructor invocation, `a.allocate`, `a.deallocate` — are recorded in
    an event trace, so ordering and multiplicity of those effects are
    plain facts about lists;
  * the debug assertions (`SASSERT`) trap: an operation guarded by an
    assertion returns an `Outcome` that is `assertFail` when the checked
    condition is false (debug-build semantics), leaving the state as it
    was at the trap;
  * `a.allocate` may fail (out of memory); the allocator model carries
    the set of request sizes that fail, and a failing request produces the
    `allocFail` outcome with no state change, modelling a propagated
    fatal allocation error.

`sizeof(T)` and `sizeof(size_t)` are parameters (`sizeofT`, `sizeofUsize`)
wherever byte counts appear.  The header is read at word index -1 from
`m_data` (`ARRAY_SIZE_IDX`, the offset `size()` uses), which in the model
is simply the `header` field of the backed region.
-/

/-- The event trace: one entry per side effect performed on elements or on
the allocator.  `construct i v` is placement-new of value `v` into slot
`i`; `destroy i v` is invoking the destructor of the value `v` occupying
slot `i`; `allocate b a` is `a.allocate(b)` returning address `a`;
`deallocate c a` is `a.deallocate(c, a)`. -/
inductive TraceEvent (α : Type) where
  | construct (i : Nat) (v : Option α) : TraceEvent α
  | destroy (i : Nat) (v : Option α) : TraceEvent α
  | allocate (bytes : Nat) (ret : Nat) : TraceEvent α
  | deallocate (count : Nat) (addr : Nat) : TraceEvent α
deriving DecidableEq, Repr

/-- The backed block: the `size_t` header written by `set_data` and the
element slots that follow it in memory (`none` = still raw memory). -/
structure Region (α : Type) where
  header : Nat
  slots : List (Option α)
deriving DecidableEq, Repr

/-- Source `m_data`: the null sentinel, or a pointer into a backed region.
`addr` is the start of the region (the value `raw_ptr()` recomputes). -/
inductive Handle (α : Type) where
  | null : Handle α
  | backed (addr : Nat) (region : Region α) : Handle α
deriving DecidableEq, Repr

/-- The externally supplied allocator capability.  `nextAddr` is the next
fresh address it hands out; a request of `b` bytes fails (out of memory)
exactly when `b ∈ failing`. -/
structure Allocator where
  nextAddr : Nat
  failing : List Nat
deriving DecidableEq, Repr

/-- Whether `a.allocate(bytes)` succeeds. -/
def Allocator.canAlloc (a : Allocator) (bytes : Nat) : Bool :=
  !(a.failing.contains bytes)

/-- Source `a.allocate(bytes)`: `none` on allocation failure, otherwise the
returned address and the advanced allocator. -/
def Allocator.allocate (a : Allocator) (bytes : Nat) : Option (Nat × Allocator) :=
  if a.canAlloc bytes then some (a.nextAddr, ⟨a.nextAddr + bytes, a.failing⟩)
  else none

/-- The state an `array` handle lives in: the handle itself, the allocator
collaborator, and the trace of side effects so far. -/
structure ArrState (α : Type) where
  handle : Handle α
  alloc : Allocator
  trace : List (TraceEvent α)
deriving DecidableEq, Repr

/-- Result of an operation that can trap on a debug assertion
(`assertFail`) or hit an allocation failure (`allocFail`). -/
inductive Outcome where
  | ok : Outcome
  | assertFail : Outcome
  | allocFail : Outcome
deriving DecidableEq, Repr

/-- Source `static size_t space(size_t sz) { return sizeof(T)*sz + sizeof(size_t); }` -/
def space (sizeofT sizeofUsize sz : Nat) : Nat :=
  sizeofT * sz + sizeofUsize

/-- Dereferencing element slot `i` of a backed region (`m_data[i]`):
`none` when the slot is out of the region or uninitialized. -/
def Region.read (r : Region α) (i : Nat) : Option α :=
  r.slots[i]?.join

/-- Source `size()`: 0 for the null sentinel, otherwise the header word at
`m_data[ARRAY_SIZE_IDX]`. -/
def Handle.size : Handle α → Nat
  | .null => 0
  | .backed _ r => r.header

/-- Source `empty()`: `m_data == 0`. -/
def Handle.empty : Handle α → Bool
  | .null => true
  | .backed _ _ => false

/-- The sequence produced by iterating from `begin()` to `end()`:
`end() - begin() = size()` slots, dereferenced in storage order.  For the
null sentinel `begin() == end()` and nothing is produced. -/
def Handle.iterate : Handle α → List (Option α)
  | .null => []
  | .backed _ r => (List.range r.header).map r.read

/-- Source `set_data(mem, sz)`: writes `sz` into the header word at `mem` and
points `m_data` just past it.  The element slots are the raw memory that
follows: `sz` uninitialized slots. -/
def set_data (mem sz : Nat) : Handle α :=
  .backed mem ⟨sz, List.replicate sz none⟩

/-- Source `init(T const * vs)` on the region: `for (it = begin(); it != e; ++it, ++vs) new (it) T(*vs);`
— copy-constructs slot `i` from `vs[i]` for `i` in `[0, header)`, emitting
one construct event per slot in forward order. -/
def Region.initCopy (r : Region α) (vs : List α) : Region α × List (TraceEvent α) :=
  (⟨r.header, (List.range r.header).map fun i => vs[i]?⟩,
   (List.range r.header).map fun i => TraceEvent.construct i vs[i]?)

/-- Source `init()` on the region: default-constructs every slot in forward
order. -/
def Region.initDefault [Inhabited α] (r : Region α) : Region α × List (TraceEvent α) :=
  (⟨r.header, List.replicate r.header (some default)⟩,
   (List.range r.header).map fun i => TraceEvent.construct i (some default))

/-- Source `destroy_elements()`: `for (it = begin(); it != e; ++it) it->~T();` —
one destroy event per slot in `[0, size())`, in forward order. -/
def Region.destroy_elements (r : Region α) : List (TraceEvent α) :=
  (List.range r.header).map fun i => TraceEvent.destroy i (r.read i)

/-- Source `init(vs)` lifted to the handle (a no-op on the null sentinel, which
never occurs: `set_data` always produces a backed handle). -/
def Handle.initCopy (h : Handle α) (vs : List α) : Handle α × List (TraceEvent α) :=
  match h with
  | .null => (.null, [])
  | .backed a r =>
    let p := r.initCopy vs
    (.backed a p.1, p.2)

/-- Source `init()` lifted to the handle. -/
def Handle.initDefault [Inhabited α] (h : Handle α) : Handle α × List (TraceEvent α) :=
  match h with
  | .null => (.null, [])
  | .backed a r =>
    let p := r.initDefault
    (.backed a p.1, p.2)

/-- The private `allocate(Allocator & a, size_t sz)`:
`mem = a.allocate(space(sz)); set_data(mem, sz);` — on allocation failure
the fatal error propagates with no state change. -/
def array.allocate (sizeofT sizeofUsize : Nat) (st : ArrState α) (sz : Nat) :
    Outcome × ArrState α :=
  match st.alloc.allocate (space sizeofT sizeofUsize sz) with
  | none => (.allocFail, st)
  | some (addr, a2) =>
    (.ok, ⟨set_data addr sz, a2,
           st.trace ++ [.allocate (space sizeofT sizeofUsize sz) addr]⟩)

/-- Source `void set(void * mem, size_t sz, T const * vs)`:
`SASSERT(m_data == 0); set_data(mem, sz); init(vs);` -/
def array.set_mem (st : ArrState α) (mem sz : Nat) (vs : List α) :
    Outcome × ArrState α :=
  if st.handle.empty then
    let p := (set_data mem sz : Handle α).initCopy vs
    (.ok, ⟨p.1, st.alloc, st.trace ++ p.2⟩)
  else (.assertFail, st)

/-- Source `void set(Allocator & a, size_t sz, T const * vs)`:
`SASSERT(m_data == 0); allocate(a, sz); init(vs);` -/
def array.set_alloc (sizeofT sizeofUsize : Nat) (st : ArrState α) (sz : Nat)
    (vs : List α) : Outcome × ArrState α :=
  if st.handle.empty then
    match array.allocate sizeofT sizeofUsize st sz with
    | (.ok, st1) =>
      let p := st1.handle.initCopy vs
      (.ok, ⟨p.1, st1.alloc, st1.trace ++ p.2⟩)
    | (o, st1) => (o, st1)
  else (.assertFail, st)

/-- Source `array():m_data(0)` — the default constructor yields the null
sentinel. -/
def array.default_ctor : Handle α := .null

/-- Source `array(void * mem, size_t sz, T const * vs)`:
`DEBUG_CODE(m_data = 0;); set(mem, sz, vs);` -/
def array.mk_mem (a : Allocator) (tr : List (TraceEvent α)) (mem sz : Nat)
    (vs : List α) : Outcome × ArrState α :=
  array.set_mem ⟨.null, a, tr⟩ mem sz vs

/-- Source `array(Allocator & a, size_t sz, T const * vs)`:
`DEBUG_CODE(m_data = 0;); set(a, sz, vs);` -/
def array.mk_alloc (sizeofT sizeofUsize : Nat) (a : Allocator)
    (tr : List (TraceEvent α)) (sz : Nat) (vs : List α) : Outcome × ArrState α :=
  array.set_alloc sizeofT sizeofUsize ⟨.null, a, tr⟩ sz vs

/-- Source `array(void * mem, size_t sz, bool init_mem)`:
`DEBUG_CODE(m_data = 0;); set_data(mem, sz); if (init_mem) init();` -/
def array.mk_mem_init [Inhabited α] (a : Allocator) (tr : List (TraceEvent α))
    (mem sz : Nat) (init_mem : Bool) : ArrState α :=
  let h : Handle α := set_data mem sz
  if init_mem then
    let p := h.initDefault
    ⟨p.1, a, tr ++ p.2⟩
  else ⟨h, a, tr⟩

/-- Source `array(Allocator & a, size_t sz, bool init_mem)`:
`DEBUG_CODE(m_data = 0;); allocate(a, sz); if (init_mem) init();` -/
def array.mk_alloc_init [Inhabited α] (sizeofT sizeofUsize : Nat)
    (a : Allocator) (tr : List (TraceEvent α)) (sz : Nat) (init_mem : Bool) :
    Outcome × ArrState α :=
  match array.allocate sizeofT sizeofUsize (⟨.null, a, tr⟩ : ArrState α) sz with
  | (.ok, st1) =>
    if init_mem then
      let p := st1.handle.initDefault
      (.ok, ⟨p.1, st1.alloc, st1.trace ++ p.2⟩)
    else (.ok, st1)
  | (o, st1) => (o, st1)

/-- Source `~array() { if (m_data && CallDestructors) destroy_elements(); }` —
the implicit scope-exit behavior; `cd` is the `CallDestructors` template
argument.  It never touches the allocator and never resets `m_data`. -/
def array.dtor (cd : Bool) (st : ArrState α) : ArrState α :=
  match st.handle with
  | .null => st
  | .backed _ r =>
    if cd then { st with trace := st.trace ++ r.destroy_elements } else st

/-- Source `void finalize(Allocator & a)`:
`if (m_data) { if (CallDestructors) destroy_elements(); a.deallocate(size(), raw_ptr()); m_data = 0; }` -/
def array.finalize (cd : Bool) (st : ArrState α) : ArrState α :=
  match st.handle with
  | .null => st
  | .backed addr r =>
    let tr1 := if cd then r.destroy_elements else []
    ⟨.null, st.alloc, st.trace ++ tr1 ++ [.deallocate r.header addr]⟩

/-- Source `operator[](size_t idx) const`: `SASSERT(idx < size()); return m_data[idx];`
— the debug assertion traps out-of-range indices; in range the slot is
dereferenced by plain pointer arithmetic, no wrapping and no clamping. -/
def array.read_idx (h : Handle α) (idx : Nat) : Outcome × Option α :=
  if idx < h.size then
    match h with
    | .null => (.ok, none)
    | .backed _ r => (.ok, r.read idx)
  else (.assertFail, none)

/-- Source `operator[](size_t idx)` (non-const) used as the target of an
assignment: `SASSERT(idx < size()); m_data[idx] = v;` -/
def array.write_idx (h : Handle α) (idx : Nat) (v : α) : Outcome × Handle α :=
  if idx < h.size then
    match h with
    | .null => (.ok, h)
    | .backed a r => (.ok, .backed a ⟨r.header, r.slots.set idx (some v)⟩)
  else (.assertFail, h)

/-- A C++ pointer value `U*`, modelled as a raw address.  A `ptr_array`
stores these addresses; nothing in its operations dereferences them. -/
abbrev Ptr (_ : Type) : Type := Nat

/-- Source `class sarray : public array<T, false>` — the opaque-element
specialization adds no members; every constructor forwards to the base
class with `CallDestructors = false`, and every other operation is the
inherited one.  The following definitions spell out each operation of
`sarray<T>` as the `array` operation with the template argument fixed. -/
def sarray.default_ctor : Handle α := array.default_ctor

/-- Source `sarray(void * mem, size_t sz, T const * vs)` forwards to the base
constructor. -/
def sarray.mk_mem (a : Allocator) (tr : List (TraceEvent α)) (mem sz : Nat)
    (vs : List α) : Outcome × ArrState α :=
  array.mk_mem a tr mem sz vs

/-- Source `sarray(Allocator & a, size_t sz, T const * vs)` forwards to the base
constructor. -/
def sarray.mk_alloc (sizeofT sizeofUsize : Nat) (a : Allocator)
    (tr : List (TraceEvent α)) (sz : Nat) (vs : List α) : Outcome × ArrState α :=
  array.mk_alloc sizeofT sizeofUsize a tr sz vs

/-- Source `sarray(void * mem, size_t sz, bool init_mem)` forwards to the base
constructor. -/
def sarray.mk_mem_init [Inhabited α] (a : Allocator) (tr : List (TraceEvent α))
    (mem sz : Nat) (init_mem : Bool) : ArrState α :=
  array.mk_mem_init a tr mem sz init_mem

/-- The inherited `set(void *, size_t, T const *)`. -/
def sarray.set_mem (st : ArrState α) (mem sz : Nat) (vs : List α) :
    Outcome × ArrState α :=
  array.set_mem st mem sz vs

/-- The inherited destructor, at `CallDestructors = false`. -/
def sarray.dtor (st : ArrState α) : ArrState α := array.dtor false st

/-- The inherited `finalize`, at `CallDestructors = false`. -/
def sarray.finalize (st : ArrState α) : ArrState α := array.finalize false st

/-- The inherited `size()`. -/
def sarray.size (h : Handle α) : Nat := h.size

/-- The inherited `empty()`. -/
def sarray.empty (h : Handle α) : Bool := h.empty

/-- The inherited iteration from `begin()` to `end()`. -/
def sarray.iterate (h : Handle α) : List (Option α) := h.iterate

/-- The inherited `operator[]`. -/
def sarray.read_idx (h : Handle α) (idx : Nat) : Outcome × Option α :=
  array.read_idx h idx

/-- Source `class ptr_array : public array<T *, false>` — the pointer-element
specialization: `array` at element type `U*` with
`CallDestructors = false`, again adding no members of its own. -/
def ptr_array.default_ctor (U : Type) : Handle (Ptr U) := array.default_ctor

/-- Source `ptr_array(void * mem, size_t sz, T * const * vs)` forwards to the
base constructor. -/
def ptr_array.mk_mem (U : Type) (a : Allocator) (tr : List (TraceEvent (Ptr U)))
    (mem sz : Nat) (vs : List (Ptr U)) : Outcome × ArrState (Ptr U) :=
  array.mk_mem a tr mem sz vs

/-- The inherited `set(void *, size_t, T * const *)`. -/
def ptr_array.set_mem (U : Type) (st : ArrState (Ptr U)) (mem sz : Nat)
    (vs : List (Ptr U)) : Outcome × ArrState (Ptr U) :=
  array.set_mem st mem sz vs

/-- The inherited destructor, at `CallDestructors = false`. -/
def ptr_array.dtor (U : Type) (st : ArrState (Ptr U)) : ArrState (Ptr U) :=
  array.dtor false st

/-- The inherited `finalize`, at `CallDestructors = false`. -/
def ptr_array.finalize (U : Type) (st : ArrState (Ptr U)) : ArrState (Ptr U) :=
  array.finalize false st

/-- The inherited `size()`. -/
def ptr_array.size (U : Type) (h : Handle (Ptr U)) : Nat := h.size

/-- The inherited `operator[]`. -/
def ptr_array.read_idx (U : Type) (h : Handle (Ptr U)) (idx : Nat) :
    Outcome × Option (Ptr U) :=
  array.read_idx h idx

lemma read_initCopy (n : Nat) (vs : List α) (i : Nat) (hi : i < n) :
    Region.read ⟨n, (List.range n).map fun j => vs[j]?⟩ i = vs[i]? := by
  simp [Region.read, List.getElem?_map, List.getElem?_range, hi]

lemma range_map_getElem? (vs : List α) :
    (List.range vs.length).map (fun i => vs[i]?) = vs.map some := by
  induction vs with
  | nil => simp
  | cons x xs ih =>
    rw [List.length_cons, List.range_succ_eq_map]
    simp only [List.map_cons, List.map_map]
    refine congrArg₂ List.cons (by simp) ?_
    calc (List.range xs.length).map ((fun i => (x :: xs)[i]?) ∘ (· + 1))
        = (List.range xs.length).map (fun i => xs[i]?) := by
          refine List.map_congr_left ?_
          intro i _
          simp
      _ = xs.map some := ih

lemma iterate_backed_initCopy (mem n : Nat) (vs : List α) (hlen : vs.length = n) :
    (Handle.backed mem ⟨n, (List.range n).map fun i => vs[i]?⟩ : Handle α).iterate
      = vs.map some := by
  subst hlen
  show (List.range vs.length).map
      (Region.read ⟨vs.length, (List.range vs.length).map fun i => vs[i]?⟩) = vs.map some
  rw [← range_map_getElem? vs]
  refine List.map_congr_left ?_
  intro i hi
  exact read_initCopy _ _ _ (List.mem_range.mp hi)

lemma set_mem_of_empty (st : ArrState α) (mem n : Nat) (vs : List α)
    (h : st.handle.empty = true) :
    array.set_mem st mem n vs =
      (Outcome.ok,
       ⟨Handle.backed mem ⟨n, (List.range n).map fun i => vs[i]?⟩, st.alloc,
        st.trace ++ (List.range n).map fun i => TraceEvent.construct i vs[i]?⟩) := by
  simp [array.set_mem, h, set_data, Handle.initCopy, Region.initCopy]

lemma allocate_of_canAlloc (szT szU : Nat) (st : ArrState α) (n : Nat)
    (hc : st.alloc.canAlloc (space szT szU n) = true) :
    array.allocate szT szU st n =
      (Outcome.ok,
       ⟨Handle.backed st.alloc.nextAddr ⟨n, List.replicate n none⟩,
        ⟨st.alloc.nextAddr + space szT szU n, st.alloc.failing⟩,
        st.trace ++ [TraceEvent.allocate (space szT szU n) st.alloc.nextAddr]⟩) := by
  simp [array.allocate, Allocator.allocate, hc, set_data]

lemma set_alloc_of_empty (szT szU : Nat) (st : ArrState α) (n : Nat) (vs : List α)
    (h : st.handle.empty = true) (hc : st.alloc.canAlloc (space szT szU n) = true) :
    array.set_alloc szT szU st n vs =
      (Outcome.ok,
       ⟨Handle.backed st.alloc.nextAddr ⟨n, (List.range n).map fun i => vs[i]?⟩,
        ⟨st.alloc.nextAddr + space szT szU n, st.alloc.failing⟩,
        st.trace ++ [TraceEvent.allocate (space szT szU n) st.alloc.nextAddr]
          ++ (List.range n).map fun i => TraceEvent.construct i vs[i]?⟩) := by
  rw [array.set_alloc, if_pos h, allocate_of_canAlloc szT szU st n hc]
  simp [Handle.initCopy, Region.initCopy]

/-- Claim C1: for every `n ≥ 0` and source sequence `vs` of `n` values,
creating a block from `vs` (via `set(mem, sz, vs)` into raw memory, or via
`set(a, sz, vs)` with an allocator whose allocation succeeds) succeeds,
`size()` returns `n`, and iterating from `begin()` to `end()` yields
exactly the source values in order. -/
theorem C1_copy_roundtrip (st : ArrState α) (mem n szT szU : Nat) (vs : List α)
    (hemp : st.handle.empty = true) (hlen : vs.length = n) :
    (array.set_mem st mem n vs).1 = Outcome.ok ∧
    (array.set_mem st mem n vs).2.handle.size = n ∧
    (array.set_mem st mem n vs).2.handle.iterate = vs.map some ∧
    (st.alloc.canAlloc (space szT szU n) = true →
      (array.set_alloc szT szU st n vs).1 = Outcome.ok ∧
      (array.set_alloc szT szU st n vs).2.handle.size = n ∧
      (array.set_alloc szT szU st n vs).2.handle.iterate = vs.map some) := by
  rw [set_mem_of_empty st mem n vs hemp]
  refine ⟨rfl, rfl, iterate_backed_initCopy mem n vs hlen, ?_⟩
  intro hc
  rw [set_alloc_of_empty szT szU st n vs hemp hc]
  exact ⟨rfl, rfl, iterate_backed_initCopy _ n vs hlen⟩

theorem C1_witness :
    (⟨Handle.null, ⟨0, []⟩, []⟩ : ArrState Nat).handle.empty = true ∧
    ([10, 20, 30] : List Nat).length = 3 ∧
    (array.set_mem (⟨Handle.null, ⟨0, []⟩, []⟩ : ArrState Nat) 100 3 [10, 20, 30]).2.handle.size = 3 ∧
    (array.set_mem (⟨Handle.null, ⟨0, []⟩, []⟩ : ArrState Nat) 100 3 [10, 20, 30]).2.handle.iterate
      = [some 10, some 20, some 30] ∧
    (array.set_alloc 4 8 (⟨Handle.null, ⟨0, []⟩, []⟩ : ArrState Nat) 3 [10, 20, 30]).2.handle.iterate
      = [some 10, some 20, some 30] := by
  have h := C1_copy_roundtrip (⟨Handle.null, ⟨0, []⟩, []⟩ : ArrState Nat) 100 3 4 8
    [10, 20, 30] (by decide) (by decide)
  exact ⟨by decide, by decide, h.2.1, h.2.2.1, (h.2.2.2 (by decide)).2.2⟩

/-- Claim C2: `finalize(a)` on a non-empty handle with
`CallDestructors = true` appends to the trace exactly one destroy event
per slot `i < size()` (each slot exactly once, in forward storage order),
followed by the single `a.deallocate(size(), raw_ptr())` call returning
the backing region, and afterwards the handle is the empty sentinel:
`empty()` is true and `size()` is 0. -/
theorem C2_finalize_nonempty (st : ArrState α) (addr : Nat) (r : Region α)
    (h : st.handle = Handle.backed addr r) :
    (array.finalize true st).trace
      = st.trace
        ++ ((List.range st.handle.size).map fun i => TraceEvent.destroy i (r.read i))
        ++ [TraceEvent.deallocate st.handle.size addr] ∧
    (array.finalize true st).handle = Handle.null ∧
    (array.finalize true st).handle.empty = true ∧
    (array.finalize true st).handle.size = 0 := by
  obtain ⟨hd, al, tr⟩ := st
  simp only at h
  subst h
  simp [array.finalize, Region.destroy_elements, Handle.size, Handle.empty]

theorem C2_witness :
    (⟨Handle.backed 7 ⟨2, [some 5, some 6]⟩, ⟨0, []⟩, []⟩ : ArrState Nat).handle
      = Handle.backed 7 ⟨2, [some 5, some 6]⟩ ∧
    (array.finalize true
        (⟨Handle.backed 7 ⟨2, [some 5, some 6]⟩, ⟨0, []⟩, []⟩ : ArrState Nat)).trace
      = [TraceEvent.destroy 0 (some 5), TraceEvent.destroy 1 (some 6),
         TraceEvent.deallocate 2 7] ∧
    (array.finalize true
        (⟨Handle.backed 7 ⟨2, [some 5, some 6]⟩, ⟨0, []⟩, []⟩ : ArrState Nat)).handle.empty
      = true := by
  have h := C2_finalize_nonempty
    (⟨Handle.backed 7 ⟨2, [some 5, some 6]⟩, ⟨0, []⟩, []⟩ : ArrState Nat)
    7 ⟨2, [some 5, some 6]⟩ (by decide)
  refine ⟨by decide, ?_, h.2.2.1⟩
  rw [h.1]
  decide

/-- Claim C3: `empty()` holds exactly for the null sentinel; the default
constructor produces it and `finalize` always leaves it behind; a block
created with `n = 0` reports `size() = 0` yet `empty() = false` (and more
generally any successful creation makes the handle non-empty), so the
sentinel and a zero-length backed block are distinguishable even though
both report size 0; and the sentinel behaves as a zero-length array in
reads: `size()` is 0 and iteration produces nothing. -/
theorem C3_empty_sentinel (st : ArrState α) (mem : Nat) (vs : List α)
    (hemp : st.handle.empty = true) :
    (∀ h : Handle α, h.empty = true ↔ h = Handle.null) ∧
    (array.default_ctor : Handle α).empty = true ∧
    (∀ (cd : Bool) (st2 : ArrState α), (array.finalize cd st2).handle.empty = true) ∧
    (array.set_mem st mem 0 vs).2.handle.size = 0 ∧
    (array.set_mem st mem 0 vs).2.handle.empty = false ∧
    (∀ n : Nat, (array.set_mem st mem n vs).2.handle.empty = false) ∧
    Handle.size (Handle.null : Handle α) = 0 ∧
    Handle.iterate (Handle.null : Handle α) = [] := by
  refine ⟨?_, rfl, ?_, ?_, ?_, ?_, rfl, rfl⟩
  · intro h
    cases h <;> simp [Handle.empty]
  · intro cd st2
    rcases hh : st2.handle with _ | ⟨a, r⟩ <;>
      · obtain ⟨hd, al, tr⟩ := st2
        simp only at hh
        subst hh
        simp [array.finalize, Handle.empty]
  · rw [set_mem_of_empty st mem 0 vs hemp]; rfl
  · rw [set_mem_of_empty st mem 0 vs hemp]; rfl
  · intro n
    rw [set_mem_of_empty st mem n vs hemp]; rfl

theorem C3_witness :
    (⟨Handle.null, ⟨0, []⟩, []⟩ : ArrState Nat).handle.empty = true ∧
    (array.set_mem (⟨Handle.null, ⟨0, []⟩, []⟩ : ArrState Nat) 100 0 []).2.handle.size = 0 ∧
    (array.set_mem (⟨Handle.null, ⟨0, []⟩, []⟩ : ArrState Nat) 100 0 []).2.handle.empty = false := by
  have h := C3_empty_sentinel (⟨Handle.null, ⟨0, []⟩, []⟩ : ArrState Nat) 100
    ([] : List Nat) (by decide)
  exact ⟨by decide, h.2.2.2.1, h.2.2.2.2.1⟩

/-- Claim C5: on a block created from source sequence `vs`, `operator[]`
at any `i < size()` returns the element placed there at construction
(`vs[i]`), and after mutating slot `i` through the non-const `operator[]`
it returns the new value; at any `i ≥ size()` both accesses trap on the
debug assertion `idx < size()` — the result is the assertion failure, not
a wrapped or truncated access. -/
theorem C5_index (st : ArrState α) (mem n : Nat) (vs : List α) (h : Handle α)
    (hemp : st.handle.empty = true) (hlen : vs.length = n)
    (hh : h = (array.set_mem st mem n vs).2.handle) :
    (∀ i : Fin vs.length, array.read_idx h i.1 = (Outcome.ok, some (vs.get i))) ∧
    (∀ (i : Fin vs.length) (v : α),
       array.read_idx (array.write_idx h i.1 v).2 i.1 = (Outcome.ok, some v)) ∧
    (∀ i : Nat, n ≤ i → array.read_idx h i = (Outcome.assertFail, none)) ∧
    (∀ (i : Nat) (v : α), n ≤ i → array.write_idx h i v = (Outcome.assertFail, h)) := by
  rw [set_mem_of_empty st mem n vs hemp] at hh
  simp only at hh
  subst hh
  have hsz : (Handle.backed mem ⟨n, (List.range n).map fun i => vs[i]?⟩ : Handle α).size = n := rfl
  refine ⟨?_, ?_, ?_, ?_⟩
  · intro i
    have hi : i.1 < n := hlen ▸ i.2
    rw [array.read_idx, if_pos (hsz ▸ hi)]
    rw [read_initCopy n vs i.1 hi]
    simp [List.getElem?_eq_getElem (i.2 : i.1 < vs.length), List.get_eq_getElem]
  · intro i v
    have hi : i.1 < n := hlen ▸ i.2
    have hlen2 : i.1 < ((List.range n).map fun j => vs[j]?).length := by
      simpa using hi
    rw [array.write_idx, if_pos (hsz ▸ hi)]
    simp only
    rw [array.read_idx]
    rw [if_pos (show i.1 < (Handle.backed mem
      ⟨n, ((List.range n).map fun j => vs[j]?).set i.1 (some v)⟩ : Handle α).size from hi)]
    simp [Region.read, List.getElem?_set_eq_of_lt _ hlen2]
  · intro i hi
    rw [array.read_idx, if_neg (by simp [hsz]; omega)]
  · intro i v hi
    rw [array.write_idx, if_neg (by simp [hsz]; omega)]

theorem C5_witness :
    (⟨Handle.null, ⟨0, []⟩, []⟩ : ArrState Nat).handle.empty = true ∧
    ([10, 20, 30] : List Nat).length = 3 ∧
    array.read_idx
        (array.set_mem (⟨Handle.null, ⟨0, []⟩, []⟩ : ArrState Nat) 100 3 [10, 20, 30]).2.handle 1
      = (Outcome.ok, some 20) ∧
    array.read_idx
        (array.set_mem (⟨Handle.null, ⟨0, []⟩, []⟩ : ArrState Nat) 100 3 [10, 20, 30]).2.handle 5
      = (Outcome.assertFail, none) := by
  have h := C5_index (⟨Handle.null, ⟨0, []⟩, []⟩ : ArrState Nat) 100 3 [10, 20, 30]
    (array.set_mem (⟨Handle.null, ⟨0, []⟩, []⟩ : ArrState Nat) 100 3 [10, 20, 30]).2.handle
    (by decide) (by decide) rfl
  exact ⟨by decide, by decide, h.1 ⟨1, by decide⟩, h.2.2.1 5 (by decide)⟩

/-- Claim C4: `space(n)` is a pure function of `n` (it is a Lean function
of its arguments, with no state and no failure outcome in its type) and
equals `n * sizeof(T) + sizeof(size_t)` for every `n`. -/
theorem C4_space_formula (sizeofT sizeofUsize n : Nat) :
    space sizeofT sizeofUsize n = n * sizeofT + sizeofUsize := by
  simp [space, Nat.mul_comm]

lemma deallocate_not_mem_destroy_elements (r : Region α) (c a : Nat) :
    TraceEvent.deallocate c a ∉ r.destroy_elements := by
  simp [Region.destroy_elements]

lemma dtor_false_eq (st : ArrState α) : array.dtor false st = st := by
  obtain ⟨hd, al, tr⟩ := st
  cases hd <;> simp [array.dtor]

lemma finalize_false_no_destroy (st : ArrState α) (i : Nat) (v : Option α) :
    TraceEvent.destroy i v ∉ ((array.finalize false st).trace).drop st.trace.length := by
  obtain ⟨hd, al, tr⟩ := st
  cases hd with
  | null => simp [array.finalize]
  | backed addr r => simp [array.finalize, List.drop_left]

/-- Claim C6: the destructor `~array()` runs element teardown if and only
if `CallDestructors` is set and the handle is non-empty; it never calls
`deallocate` (no deallocate event is ever added to the trace), and it
leaves the handle and the allocator untouched — only `finalize` resets
the handle. -/
theorem C6_dtor_frame (cd : Bool) (st : ArrState α) :
    (array.dtor cd st).handle = st.handle ∧
    (array.dtor cd st).alloc = st.alloc ∧
    (∀ addr r, st.handle = Handle.backed addr r → cd = true →
       (array.dtor cd st).trace = st.trace ++ r.destroy_elements) ∧
    (cd = false → array.dtor cd st = st) ∧
    (st.handle = Handle.null → array.dtor cd st = st) ∧
    (∀ c a2, TraceEvent.deallocate c a2 ∈ (array.dtor cd st).trace →
       TraceEvent.deallocate c a2 ∈ st.trace) := by
  obtain ⟨hd, al, tr⟩ := st
  cases hd with
  | null =>
    refine ⟨rfl, rfl, ?_, fun _ => rfl, fun _ => rfl, fun _ _ h => h⟩
    intro addr r h
    simp at h
  | backed addr r =>
    cases cd with
    | false =>
      refine ⟨rfl, rfl, ?_, fun _ => rfl, ?_, fun _ _ h => h⟩
      · intro _ _ _ h
        simp at h
      · intro h
        simp at h
    | true =>
      refine ⟨rfl, rfl, ?_, ?_, ?_, ?_⟩
      · intro addr2 r2 h _
        have h2 : r2 = r := by
          have h3 := (Handle.backed.injEq addr r addr2 r2).mp h
          exact h3.2.symm
        subst h2
        rfl
      · intro h
        simp at h
      · intro h
        simp at h
      · intro c a2 hmem
        have hmem2 : TraceEvent.deallocate c a2 ∈ tr ++ r.destroy_elements := hmem
        rcases List.mem_append.mp hmem2 with h1 | h1
        · exact h1
        · exact absurd h1 (deallocate_not_mem_destroy_elements r c a2)

theorem C6_witness :
    ((⟨Handle.backed 7 ⟨2, [some 5, some 6]⟩, ⟨0, []⟩, []⟩ : ArrState Nat).handle
       = Handle.backed 7 ⟨2, [some 5, some 6]⟩) ∧
    (array.dtor true
        (⟨Handle.backed 7 ⟨2, [some 5, some 6]⟩, ⟨0, []⟩, []⟩ : ArrState Nat)).handle
      = Handle.backed 7 ⟨2, [some 5, some 6]⟩ ∧
    (array.dtor true
        (⟨Handle.backed 7 ⟨2, [some 5, some 6]⟩, ⟨0, []⟩, []⟩ : ArrState Nat)).trace
      = [TraceEvent.destroy 0 (some 5), TraceEvent.destroy 1 (some 6)] := by
  have h := C6_dtor_frame true
    (⟨Handle.backed 7 ⟨2, [some 5, some 6]⟩, ⟨0, []⟩, []⟩ : ArrState Nat)
  refine ⟨by decide, h.1, ?_⟩
  rw [h.2.2.1 7 ⟨2, [some 5, some 6]⟩ rfl rfl]
  decide

/-- Claim C7: `finalize` on an already-empty handle is a no-op — the
whole state (handle, allocator, trace) is returned unchanged, so no
teardown event and no deallocate event is produced — and `finalize` is
idempotent. -/
theorem C7_finalize_idempotent (cd : Bool) (st : ArrState α) :
    (st.handle.empty = true → array.finalize cd st = st) ∧
    array.finalize cd (array.finalize cd st) = array.finalize cd st := by
  obtain ⟨hd, al, tr⟩ := st
  cases hd with
  | null => exact ⟨fun _ => rfl, rfl⟩
  | backed addr r =>
    refine ⟨?_, rfl⟩
    intro h
    simp [Handle.empty] at h

theorem C7_witness :
    (⟨Handle.null, ⟨0, []⟩, []⟩ : ArrState Nat).handle.empty = true ∧
    array.finalize true (⟨Handle.null, ⟨0, []⟩, []⟩ : ArrState Nat)
      = (⟨Handle.null, ⟨0, []⟩, []⟩ : ArrState Nat) ∧
    array.finalize true (array.finalize true
        (⟨Handle.backed 7 ⟨1, [some 5]⟩, ⟨0, []⟩, []⟩ : ArrState Nat))
      = array.finalize true (⟨Handle.backed 7 ⟨1, [some 5]⟩, ⟨0, []⟩, []⟩ : ArrState Nat) := by
  have h1 := C7_finalize_idempotent true (⟨Handle.null, ⟨0, []⟩, []⟩ : ArrState Nat)
  have h2 := C7_finalize_idempotent true
    (⟨Handle.backed 7 ⟨1, [some 5]⟩, ⟨0, []⟩, []⟩ : ArrState Nat)
  exact ⟨by decide, h1.1 (by decide), h2.2⟩

/-- Claim C8: both `set` overloads assert `m_data == 0`: called on a
non-empty handle they trap (debug assertion failure) leaving the state
unchanged; called on an empty handle the assertion passes (the only
remaining failure is allocation failure in the allocator overload); the
constructors, which null `m_data` before delegating, never trip this
assertion. -/
theorem C8_set_requires_empty (st : ArrState α) (a : Allocator)
    (tr : List (TraceEvent α)) (mem n szT szU : Nat) (vs : List α) :
    (st.handle ≠ Handle.null →
       array.set_mem st mem n vs = (Outcome.assertFail, st) ∧
       array.set_alloc szT szU st n vs = (Outcome.assertFail, st)) ∧
    (st.handle = Handle.null →
       (array.set_mem st mem n vs).1 = Outcome.ok ∧
       (array.set_alloc szT szU st n vs).1 ≠ Outcome.assertFail) ∧
    (array.mk_mem a tr mem n vs).1 = Outcome.ok ∧
    (array.mk_alloc szT szU a tr n vs).1 ≠ Outcome.assertFail := by
  obtain ⟨hd, al, tr2⟩ := st
  refine ⟨?_, ?_, ?_, ?_⟩
  · intro hne
    cases hd with
    | null => exact absurd rfl hne
    | backed addr r =>
      exact ⟨by simp [array.set_mem, Handle.empty],
             by simp [array.set_alloc, Handle.empty]⟩
  · intro h
    cases hd with
    | backed addr r => exact absurd h (by simp)
    | null =>
      refine ⟨by simp [array.set_mem, Handle.empty], ?_⟩
      rcases hh : (Allocator.allocate al (space szT szU n)) with _ | ⟨addr, a2⟩ <;>
        simp [array.set_alloc, array.allocate, Handle.empty, hh]
  · simp [array.mk_mem, array.set_mem, Handle.empty]
  · rcases hh : (Allocator.allocate a (space szT szU n)) with _ | ⟨addr, a2⟩ <;>
      simp [array.mk_alloc, array.set_alloc, array.allocate, Handle.empty, hh]

theorem C8_witness :
    ((⟨Handle.backed 7 ⟨1, [some 5]⟩, ⟨0, []⟩, []⟩ : ArrState Nat).handle ≠ Handle.null) ∧
    array.set_mem (⟨Handle.backed 7 ⟨1, [some 5]⟩, ⟨0, []⟩, []⟩ : ArrState Nat) 100 2 [1, 2]
      = (Outcome.assertFail, (⟨Handle.backed 7 ⟨1, [some 5]⟩, ⟨0, []⟩, []⟩ : ArrState Nat)) ∧
    (array.mk_mem (⟨0, []⟩ : Allocator) ([] : List (TraceEvent Nat)) 100 2 [1, 2]).1
      = Outcome.ok := by
  have h := C8_set_requires_empty
    (⟨Handle.backed 7 ⟨1, [some 5]⟩, ⟨0, []⟩, []⟩ : ArrState Nat)
    (⟨0, []⟩ : Allocator) ([] : List (TraceEvent Nat)) 100 2 4 8 [1, 2]
  exact ⟨by decide, (h.1 (by decide)).1, h.2.2.1⟩

/-- Claim C9: in allocator-backed creation, `a.allocate(space(n))` happens
before any element construction: on success the trace gains the allocate
event strictly before every construct event; on allocation failure the
fatal error propagates with no construct event emitted and the state
exactly as before the call. -/
theorem C9_alloc_precedes_init (st : ArrState α) (szT szU n : Nat) (vs : List α)
    (hemp : st.handle.empty = true) :
    (st.alloc.canAlloc (space szT szU n) = true →
       (array.set_alloc szT szU st n vs).2.trace
         = st.trace ++ [TraceEvent.allocate (space szT szU n) st.alloc.nextAddr]
           ++ ((List.range n).map fun i => TraceEvent.construct i vs[i]?)) ∧
    (st.alloc.canAlloc (space szT szU n) = false →
       array.set_alloc szT szU st n vs = (Outcome.allocFail, st)) := by
  constructor
  · intro hc
    rw [set_alloc_of_empty szT szU st n vs hemp hc]
  · intro hc
    rw [array.set_alloc, if_pos hemp, array.allocate]
    have : st.alloc.allocate (space szT szU n) = none := by
      rw [Allocator.allocate, if_neg (by simp [hc])]
    rw [this]

theorem C9_witness :
    (⟨Handle.null, ⟨0, []⟩, []⟩ : ArrState Nat).handle.empty = true ∧
    (array.set_alloc 4 8 (⟨Handle.null, ⟨0, []⟩, []⟩ : ArrState Nat) 2 [10, 20]).2.trace
      = [TraceEvent.allocate 16 0, TraceEvent.construct 0 (some 10),
         TraceEvent.construct 1 (some 20)] ∧
    array.set_alloc 4 8 (⟨Handle.null, ⟨0, [16]⟩, []⟩ : ArrState Nat) 2 [10, 20]
      = (Outcome.allocFail, (⟨Handle.null, ⟨0, [16]⟩, []⟩ : ArrState Nat)) := by
  have h1 := C9_alloc_precedes_init (⟨Handle.null, ⟨0, []⟩, []⟩ : ArrState Nat)
    4 8 2 [10, 20] (by decide)
  have h2 := C9_alloc_precedes_init (⟨Handle.null, ⟨0, [16]⟩, []⟩ : ArrState Nat)
    4 8 2 [10, 20] (by decide)
  refine ⟨by decide, ?_, h2.2 (by decide)⟩
  rw [h1.1 (by decide)]
  decide

/-- Claim C10: the specializations add no behavior: each `sarray`
operation equals the corresponding `array` operation at
`CallDestructors = false`, and each `ptr_array` operation equals the
corresponding `array` operation at the pointer element type with
`CallDestructors = false`; in particular their scope-exit teardown is the
identity (no destructor invocations) and their `finalize` never emits a
destroy event (so stored pointers are never followed). -/
theorem C10_specializations (st : ArrState α) (U : Type) (stp : ArrState (Ptr U))
    (a : Allocator) (tr : List (TraceEvent α)) (trp : List (TraceEvent (Ptr U)))
    (mem sz szT szU : Nat) (vs : List α) (vsp : List (Ptr U)) (h : Handle α)
    (idx : Nat) :
    sarray.default_ctor = (array.default_ctor : Handle α) ∧
    sarray.mk_mem a tr mem sz vs = array.mk_mem a tr mem sz vs ∧
    sarray.mk_alloc szT szU a tr sz vs = array.mk_alloc szT szU a tr sz vs ∧
    sarray.set_mem st mem sz vs = array.set_mem st mem sz vs ∧
    sarray.dtor st = array.dtor false st ∧
    sarray.finalize st = array.finalize false st ∧
    sarray.size h = h.size ∧
    sarray.empty h = h.empty ∧
    sarray.iterate h = h.iterate ∧
    sarray.read_idx h idx = array.read_idx h idx ∧
    ptr_array.default_ctor U = (array.default_ctor : Handle (Ptr U)) ∧
    ptr_array.mk_mem U a trp mem sz vsp = array.mk_mem a trp mem sz vsp ∧
    ptr_array.set_mem U stp mem sz vsp = array.set_mem stp mem sz vsp ∧
    ptr_array.dtor U stp = array.dtor false stp ∧
    ptr_array.finalize U stp = array.finalize false stp ∧
    sarray.dtor st = st ∧
    ptr_array.dtor U stp = stp ∧
    (∀ (i : Nat) (v : Option α),
       TraceEvent.destroy i v ∉ ((sarray.finalize st).trace).drop st.trace.length) ∧
    (∀ (i : Nat) (v : Option (Ptr U)),
       TraceEvent.destroy i v ∉ ((ptr_array.finalize U stp).trace).drop stp.trace.length) := by
  refine ⟨rfl, rfl, rfl, rfl, rfl, rfl, rfl, rfl, rfl, rfl, rfl, rfl, rfl, rfl, rfl,
          dtor_false_eq st, dtor_false_eq stp, ?_, ?_⟩
  · intro i v
    exact finalize_false_no_destroy st i v
  · intro i v
    exact finalize_false_no_destroy stp i v

theorem C10_witness :
    sarray.dtor (⟨Handle.backed 7 ⟨1, [some 5]⟩, ⟨0, []⟩, []⟩ : ArrState Nat)
      = (⟨Handle.backed 7 ⟨1, [some 5]⟩, ⟨0, []⟩, []⟩ : ArrState Nat) ∧
    ptr_array.dtor Nat (⟨Handle.backed 7 ⟨1, [some 42]⟩, ⟨0, []⟩, []⟩ : ArrState (Ptr Nat))
      = (⟨Handle.backed 7 ⟨1, [some 42]⟩, ⟨0, []⟩, []⟩ : ArrState (Ptr Nat)) ∧
    sarray.finalize (⟨Handle.backed 7 ⟨1, [some 5]⟩, ⟨0, []⟩, []⟩ : ArrState Nat)
      = array.finalize false (⟨Handle.backed 7 ⟨1, [some 5]⟩, ⟨0, []⟩, []⟩ : ArrState Nat) := by
  have h := C10_specializations
    (⟨Handle.backed 7 ⟨1, [some 5]⟩, ⟨0, []⟩, []⟩ : ArrState Nat) Nat
    (⟨Handle.backed 7 ⟨1, [some 42]⟩, ⟨0, []⟩, []⟩ : ArrState (Ptr Nat))
    (⟨0, []⟩ : Allocator) ([] : List (TraceEvent Nat)) ([] : List (TraceEvent (Ptr Nat)))
    100 1 4 8 [5] [42] Handle.null 0
  exact ⟨h.2.2.2.2.2.2.2.2.2.2.2.2.2.2.2.1, h.2.2.2.2.2.2.2.2.2.2.2.2.2.2.2.2.1,
         h.2.2.2.2.2.1⟩
